import Mathlib

/-!
Verification development for the geobed offline geocoder.

The definitions below are a shallow embedding of the Go sources
(`geobed.go`, `admin_divisions.go`).  Pure helpers become Lean
functions; package-level mutable state (the two string interners, the
admin-division table) becomes explicit parameters; iteration over Go
hash maps, whose order the Go specification leaves undefined, becomes
an explicit iteration-order parameter.  Machine integers are modelled
as `Nat`/`Int` with explicit `% 2^w` where the Go code converts to a
fixed-width type.  All strings appearing in concrete instances are
ASCII, so the byte-wise ASCII case functions defined by the source
(`toLower`, `toUpper`) and the ASCII restriction of
`strings.EqualFold` used here coincide with the Go behaviour.
-/

namespace Geobed

/-- ASCII lower-casing of one character, as in the byte-wise loop of the
source's `toLower` (geobed.go lines 996-1006). -/
def goLowerChar (c : Char) : Char :=
  if 'A' ≤ c ∧ c ≤ 'Z' then Char.ofNat (c.toNat + 32) else c

/-- ASCII upper-casing of one character, as in the byte-wise loop of the
source's `toUpper` (geobed.go lines 1008-1018). -/
def goUpperChar (c : Char) : Char :=
  if 'a' ≤ c ∧ c ≤ 'z' then Char.ofNat (c.toNat - 32) else c

/-- The source's own `toLower` (byte-wise ASCII lower-casing). -/
def toLower (s : String) : String := String.mk (s.data.map goLowerChar)

/-- The source's own `toUpper` (byte-wise ASCII upper-casing). -/
def toUpper (s : String) : String := String.mk (s.data.map goUpperChar)

/-- `strings.EqualFold`, restricted to ASCII case folding (on ASCII
strings Unicode simple folding and ASCII folding agree; every string in
this development is ASCII). -/
def eqFold (a b : String) : Bool := toLower a == toLower b

/-- Whitespace in the sense of Go's `unicode.IsSpace`, restricted to
ASCII (used by `strings.TrimSpace` and `strings.Fields`). -/
def isWhite (c : Char) : Bool :=
  c = ' ' ∨ c = '\t' ∨ c = '\n' ∨ c = '\x0b' ∨ c = '\x0c' ∨ c = '\r'

/-- Whitespace in the sense of the Go regexp class `\s`
(`[\t\n\f\r ]`; note this does not include vertical tab). -/
def isRegexSpace (c : Char) : Bool :=
  c = ' ' ∨ c = '\t' ∨ c = '\n' ∨ c = '\x0c' ∨ c = '\r'

/-- `strings.TrimSpace` (drop leading and trailing whitespace). -/
def trimSpace (s : String) : String :=
  String.mk (((s.data.dropWhile isWhite).reverse.dropWhile isWhite).reverse)

/-- Trim characters of a cutset from both ends: `strings.Trim(s, cutset)`. -/
def trimCutset (s : String) (cutset : List Char) : String :=
  String.mk ((((s.data.dropWhile (· ∈ cutset)).reverse.dropWhile
    (· ∈ cutset)).reverse))

/-- `strings.TrimSuffix(s, suffix)`. -/
def trimSuffix (s suffix : String) : String :=
  if suffix.data.isSuffixOf s.data then
    String.mk (s.data.take (s.data.length - suffix.data.length))
  else s

/-- `strings.Split(s, sep)` for a one-character separator, keeping empty
fields. -/
def splitOnChar (sep : Char) (s : String) : List String :=
  (s.data.splitOn sep).map String.mk

/-- `strings.Fields` — split on maximal whitespace runs, dropping
empties. -/
def goFields (s : String) : List String :=
  ((s.data.splitOnP (fun c => isWhite c)).map String.mk).filter
    (fun t => t ≠ "")

/-- `strings.Join(parts, " ")`. -/
def joinSpace : List String → String
  | [] => ""
  | [x] => x
  | x :: xs => x ++ " " ++ joinSpace xs

/-- Substring test on character lists, scanning left to right
(`strings.Contains`). -/
def containsSub (s sub : List Char) : Bool :=
  match s with
  | [] => sub.isEmpty
  | _ :: tl => if sub.isPrefixOf s then true else containsSub tl sub

/-- `strings.Contains(s, sub)` on strings. -/
def goContains (s sub : String) : Bool := containsSub s.data sub.data

/-- Levenshtein edit distance, the function computed by
`levenshtein.ComputeDistance` (insertions, deletions, substitutions,
unit cost). -/
def levDistance : List Char → List Char → Nat
  | [], ys => ys.length
  | x :: xs, [] => (x :: xs).length
  | x :: xs, y :: ys =>
    if x = y then levDistance xs ys
    else 1 + min (levDistance xs (y :: ys))
      (min (levDistance (x :: xs) ys) (levDistance xs ys))
termination_by xs ys => xs.length + ys.length

/-- `fuzzyMatch(query, candidate, maxDist)` from the source: exact
case-insensitive comparison when `maxDist` is 0, otherwise an edit
distance bound on the lower-cased strings. -/
def fuzzyMatch (query candidate : String) (maxDist : Int) : Bool :=
  if maxDist = 0 then eqFold query candidate
  else ((levDistance (toLower query).data (toLower candidate).data : Int)
    ≤ maxDist)

/-! ## The string interner

`stringInterner[T]` from the source, with the handle type `T`
(`uint8` or `uint16`) modelled by its modulus `W = 2^8` or `W = 2^16`:
the Go conversion `T(len(si.lookup))` truncates to `len % W`.
The `sync.RWMutex` is dropped: the lock protects the operations but
does not change their sequential meaning. -/

/-- Association-list lookup (the Go map read `si.index[s]`). -/
def lookupAssoc (m : List (String × Nat)) (s : String) : Option Nat :=
  match m with
  | [] => none
  | (k, v) :: tl => if k = s then some v else lookupAssoc tl s

/-- State of one `stringInterner`: the `lookup` vector and the `index`
map (as an association list; keys are unique for reachable states). -/
structure InternerState where
  lookup : List String
  index : List (String × Nat)
deriving DecidableEq, Repr

/-- `newStringInterner`: index 0 is reserved for the empty string. -/
def newStringInterner : InternerState :=
  { lookup := [""], index := [("", 0)] }

/-- `intern`: return the handle for `s`, assigning a fresh one on a
miss.  The fresh handle is `T(len(si.lookup))`, i.e. the current vector
length truncated to the handle width `W`; the source performs no range
check, so the truncation is silent. -/
def intern (W : Nat) (st : InternerState) (s : String) :
    Nat × InternerState :=
  match lookupAssoc st.index s with
  | some idx => (idx, st)
  | none =>
    let idx := st.lookup.length % W
    (idx, { lookup := st.lookup ++ [s], index := st.index ++ [(s, idx)] })

/-- `get`: the string for an index, or the empty string when the index
is out of range. -/
def iGet (st : InternerState) (idx : Nat) : String :=
  if idx < st.lookup.length then st.lookup.getD idx "" else ""

/-- `count`: number of interned strings. -/
def iCount (st : InternerState) : Nat := st.lookup.length

/-- Interning a list of strings left to right (a sequence of `intern`
calls, as the data-loading loops perform). -/
def internList (W : Nat) (st : InternerState) : List String →
    InternerState
  | [] => st
  | s :: tl => internList W (intern W st s).2 tl

end Geobed

namespace Geobed

/-! ## Data model -/

/-- `GeobedCity`: the compact city record.  The `country` and `region`
fields are interner handles (`uint8`/`uint16` in Go, here `Nat`);
coordinates (`float32` degrees) are modelled as exact rationals, which
is faithful for every concrete value appearing here; `Population` is
the `int32` population.  Field defaults give Go's zero value, so `{}`
is the empty record that signals no match. -/
structure GeobedCity where
  City : String := ""
  CityAlt : String := ""
  country : Nat := 0
  region : Nat := 0
  Latitude : ℚ := 0
  Longitude : ℚ := 0
  Population : Int := 0
deriving DecidableEq, Repr

/-- `GeobedCity.Country()`: resolve the country handle through the
(package-global) country interner, passed explicitly here. -/
def cityCountry (cI : InternerState) (c : GeobedCity) : String :=
  iGet cI c.country

/-- `GeobedCity.Region()`: resolve the region handle through the
(package-global) region interner, passed explicitly here. -/
def cityRegion (rI : InternerState) (c : GeobedCity) : String :=
  iGet rI c.region

/-- `CountryInfo` from the source (fields not used by the matcher
default to zero values so that instances stay readable). -/
structure CountryInfo where
  Country : String := ""
  Capital : String := ""
  Area : Int := 0
  Population : Int := 0
  GeonameId : Int := 0
  ISONumeric : Int := 0
  ISO : String := ""
  ISO3 : String := ""
  Fips : String := ""
  Continent : String := ""
  Tld : String := ""
  CurrencyCode : String := ""
  CurrencyName : String := ""
  Phone : String := ""
  PostalCodeFormat : String := ""
  PostalCodeRegex : String := ""
  Languages : String := ""
  Neighbours : String := ""
  EquivalentFipsCode : String := ""
deriving DecidableEq, Repr

/-- `GeocodeOptions` (`ExactCity`, `FuzzyDistance`). -/
structure GeocodeOptions where
  ExactCity : Bool := false
  FuzzyDistance : Int := 0
deriving DecidableEq, Repr

/-- The index range type `r` of the source. -/
structure RangeR where
  f : Nat
  t : Nat
deriving DecidableEq, Repr

/-- The queryable part of a `GeoBed` instance: the sorted city arena,
the country sequence and the first-letter index `cityNameIdx`
(a Go `map[string]int`, used by lookup only, modelled as an
association list with unique keys). -/
structure GeoBed where
  Cities : List GeobedCity
  Countries : List CountryInfo := []
  cityNameIdx : List (String × Nat) := []
deriving DecidableEq, Repr

/-- `cityNameIdx` lookup (`g.cityNameIdx[ik]`). -/
def idxLookup (m : List (String × Nat)) (s : String) : Option Nat :=
  match m with
  | [] => none
  | (k, v) :: tl => if k = s then some v else idxLookup tl s

/-- Insert-or-assign for `cityNameIdx` (the Go map write
`g.cityNameIdx[ik] = k`). -/
def idxStore (m : List (String × Nat)) (s : String) (v : Nat) :
    List (String × Nat) :=
  match m with
  | [] => [(s, v)]
  | (k, w) :: tl =>
    if k = s then (k, v) :: tl else (k, w) :: idxStore tl s v

/-- The `cityNameIdx` construction loop of `loadDataSets` (geobed.go
lines 496-509): for each city, key the lower-cased first byte of its
name to the largest index carrying that letter. -/
def buildCityNameIdx (cities : List GeobedCity) : List (String × Nat) :=
  (cities.enum).foldl
    (fun m kv =>
      let k := kv.1
      let v := kv.2
      if v.City.data.length = 0 then m
      else
        let ik := String.mk [goLowerChar (v.City.data.getD 0 ' ')]
        match idxLookup m ik with
        | some val => if val < k then idxStore m ik k else m
        | none => idxStore m ik k)
    []

/-- Build a `GeoBed` from an arena and country table the way
construction does (the arena is assumed already name-sorted, as after
`sort.Sort(g.Cities)`). -/
def mkGeoBed (cities : List GeobedCity) (countries : List CountryInfo) :
    GeoBed :=
  { Cities := cities, Countries := countries,
    cityNameIdx := buildCityNameIdx cities }

/-! ## Reverse geocoding

`ReverseGeocode` (geobed.go lines 967-994).  Two collaborators are
external to the repository and enter as parameters:

* the S2 spatial machinery — the concatenation of the posting lists of
  `cellAndNeighbors(queryCell)` looked up in `g.cellIndex` is the
  deterministic sequence `revSeq` of city indices the loop visits;
* `s2.LatLng.Distance` — a function `s2dist` from the query latitude
  and longitude and a candidate's (lat, lng) to an IEEE `float64`
  angle.

`float64` values are modelled by `F64`: a finite rational, `nan`, or a
signed infinity.  IEEE comparisons with `nan` are false, which is all
the loop relies on. -/

/-- IEEE double model: finite value, NaN, or signed infinity. -/
inductive F64 where
  | fin (q : ℚ)
  | nan
  | inf
  | ninf
deriving DecidableEq, Repr

/-- Finiteness of an `F64`. -/
def F64.isFinite : F64 → Bool
  | .fin _ => true
  | _ => false

/-- IEEE `<` (any comparison with NaN is false). -/
def flt : F64 → F64 → Bool
  | .fin a, .fin b => a < b
  | .fin _, .inf => true
  | .ninf, .fin _ => true
  | .ninf, .inf => true
  | _, _ => false

/-- IEEE `==` (any comparison with NaN is false). -/
def feq : F64 → F64 → Bool
  | .fin a, .fin b => a == b
  | .inf, .inf => true
  | .ninf, .ninf => true
  | _, _ => false

/-- `math.MaxFloat64` as an exact rational. -/
def maxFloat64 : ℚ := 2 ^ 1024 - 2 ^ 971

/-- The candidate loop of `ReverseGeocode`: fold the visited indices,
keeping the closest city (population breaking exact distance ties). -/
def reverseFold (cities : List GeobedCity) (dist : Nat → F64) :
    List Nat → GeobedCity × F64 → GeobedCity × F64
  | [], acc => acc
  | idx :: tl, (closest, minDist) =>
    let city := cities.getD idx {}
    let d := dist idx
    if flt d minDist then reverseFold cities dist tl (city, d)
    else if feq d minDist ∧ city.Population > closest.Population then
      reverseFold cities dist tl (city, minDist)
    else reverseFold cities dist tl (closest, minDist)

/-- `ReverseGeocode(lat, lng)`: visit the city indices `revSeq`
delivered by the S2 cell lookups and return the closest record.
`minDist` starts at `math.MaxFloat64` and `closest` at the zero
record, exactly as in the source; there is no distance cutoff, no
validity preflight and no population override in this function. -/
def ReverseGeocode (lat lng : F64) (s2dist : F64 → F64 → ℚ × ℚ → F64)
    (cities : List GeobedCity) (revSeq : List Nat) : GeobedCity :=
  (reverseFold cities
    (fun i =>
      let c := cities.getD i {}
      s2dist lat lng (c.Latitude, c.Longitude))
    revSeq ({}, F64.fin maxFloat64)).1

end Geobed

namespace Geobed

/-! ## Regular-expression model

`extractLocationPieces` builds three regexp shapes:

* for a country name `CO`: `(?i)^CO,?\s|\sCO,?\sCO\s$`
  (as written in the source, the second alternative needs the name
  twice);
* for a US state code `SC`: `(?i)^SC,?\s|\sSC,?\s|\sSC$`;
* `[\S]{2,3}` for the abbreviation scan.

Go's regexp engine (RE2) uses leftmost-first semantics: the match
starts as early as possible, alternatives are tried in order at that
start, and a greedy `,?` prefers the comma.  `ReplaceAllString(n, "")`
removes all non-overlapping leftmost matches.  The functions below
implement exactly these semantics for these three shapes, with `(?i)`
as ASCII case folding (the names involved are ASCII). -/

/-- Case-insensitive literal match, returning the rest of the input. -/
def litMatchCI : List Char → List Char → Option (List Char)
  | [], s => some s
  | _ :: _, [] => none
  | l :: ls, c :: cs =>
    if goLowerChar l = goLowerChar c then litMatchCI ls cs else none

/-- Match `,?\s` (greedy optional comma, then one whitespace),
returning the number of characters consumed. -/
def optCommaSpace (s : List Char) : Option Nat :=
  match s with
  | ',' :: c :: _ => if isRegexSpace c then some 2 else none
  | c :: _ => if isRegexSpace c then some 1 else none
  | [] => none

/-- Alternative `^LIT,?\s` at the start of the string. -/
def altStart (lit : List Char) (atStart : Bool) (s : List Char) :
    Option Nat :=
  if atStart then
    match litMatchCI lit s with
    | some rest => (optCommaSpace rest).map (fun k => lit.length + k)
    | none => none
  else none

/-- Alternative `\sLIT,?\s`. -/
def altMid (lit : List Char) (s : List Char) : Option Nat :=
  match s with
  | c :: tl =>
    if isRegexSpace c then
      match litMatchCI lit tl with
      | some rest => (optCommaSpace rest).map (fun k => 1 + lit.length + k)
      | none => none
    else none
  | [] => none

/-- Alternative `\sLIT$`. -/
def altEnd (lit : List Char) (s : List Char) : Option Nat :=
  match s with
  | c :: tl =>
    if isRegexSpace c then
      match litMatchCI lit tl with
      | some [] => some (1 + lit.length)
      | _ => none
    else none
  | [] => none

/-- Alternative `\sLIT,?\sLIT\s$` (the second arm of the country
pattern as the source concatenates it). -/
def altCountryTail (lit : List Char) (s : List Char) : Option Nat :=
  match s with
  | c :: tl =>
    if isRegexSpace c then
      match litMatchCI lit tl with
      | some rest =>
        match optCommaSpace rest with
        | some k =>
          match litMatchCI lit (rest.drop k) with
          | some [c2] =>
            if isRegexSpace c2 then
              some (1 + lit.length + k + lit.length + 1)
            else none
          | _ => none
        | none => none
      | none => none
    else none
  | [] => none

/-- The US-state pattern `(?i)^SC,?\s|\sSC,?\s|\sSC$`, tried at one
position (`atStart` true only at absolute position 0), alternatives in
pattern order. -/
def statePatAt (sc : String) (atStart : Bool) (s : List Char) :
    Option Nat :=
  (altStart sc.data atStart s) <|> (altMid sc.data s) <|>
    (altEnd sc.data s)

/-- The country pattern `(?i)^CO,?\s|\sCO,?\sCO\s$`, tried at one
position. -/
def countryPatAt (co : String) (atStart : Bool) (s : List Char) :
    Option Nat :=
  (altStart co.data atStart s) <|> (altCountryTail co.data s)

/-- Leftmost match of a single-position matcher: scan positions left to
right, returning (offset, length) of the first hit. -/
def findPat (alts : Bool → List Char → Option Nat) (pos : Nat)
    (s : List Char) : Option (Nat × Nat) :=
  match alts (pos = 0) s with
  | some l => some (0, l)
  | none =>
    match s with
    | [] => none
    | _ :: tl => (findPat alts (pos + 1) tl).map (fun p => (p.1 + 1, p.2))

/-- Remove all non-overlapping leftmost matches
(`ReplaceAllString(n, "")`).  The fuel is an upper bound on the number
of matches; every match of the patterns above consumes at least one
character, so `length + 1` suffices. -/
def stripAllAux (alts : Bool → List Char → Option Nat) :
    Nat → Nat → List Char → List Char
  | 0, _, s => s
  | fuel + 1, pos, s =>
    match findPat alts pos s with
    | none => s
    | some (i, l) =>
      s.take i ++ stripAllAux alts fuel (pos + i + l) (s.drop (i + l))

/-- `MatchString` for one of the modelled patterns. -/
def patMatch (alts : Bool → List Char → Option Nat) (n : String) :
    Bool :=
  (findPat alts 0 n.data).isSome

/-- `ReplaceAllString(n, "")` for one of the modelled patterns. -/
def patStrip (alts : Bool → List Char → Option Nat) (n : String) :
    String :=
  String.mk (stripAllAux alts (n.data.length + 1) 0 n.data)

/-- First match of `[\S]{2,3}` (leftmost, greedy), as returned by
`FindStringSubmatch`: at the first position holding two non-space
characters, take three if possible, else two. -/
def abbrevFindAux : List Char → Option (List Char)
  | [] => none
  | [_] => none
  | c1 :: c2 :: rest =>
    if ¬isRegexSpace c1 ∧ ¬isRegexSpace c2 then
      match rest with
      | c3 :: _ =>
        if ¬isRegexSpace c3 then some [c1, c2, c3] else some [c1, c2]
      | [] => some [c1, c2]
    else abbrevFindAux (c2 :: rest)

/-- `abbrevSlice`: the result of `FindStringSubmatch` for a pattern
with no capture groups — a one-element list on a hit, else empty. -/
def abbrevSliceOf (n : String) : List String :=
  match abbrevFindAux n.data with
  | some m => [String.mk m]
  | none => []

/-! ## Admin divisions (admin_divisions.go)

The table `adminDivisions : map[country]map[code]AdminDivision` is
package state loaded from a data file; it enters as a parameter
holding, per country, the set of division codes (the stored
`AdminDivision` values beyond the code are not consulted by the
matcher). -/

/-- The admin-division table: country code to its division codes. -/
abbrev AdminTable := List (String × List String)

/-- `isAdminDivision(countryCode, divisionCode)`. -/
def isAdminDivision (adm : AdminTable) (countryCode divisionCode : String) :
    Bool :=
  let dc := toUpper divisionCode
  match adm.find? (fun e => e.1 = countryCode) with
  | some e => e.2.contains dc
  | none => false

/-- `getAdminDivisionCountry(code)`: the country iff exactly one
country carries the code (the source's map-iteration order cannot
influence this, since only a unique match is returned). -/
def getAdminDivisionCountry (adm : AdminTable) (code : String) : String :=
  let c := toUpper code
  let hits := (adm.filter (fun e => e.2.contains c)).map (fun e => e.1)
  if hits.length = 1 then hits.getD 0 "" else ""

/-! ## Query parsing -/

/-- The keys of the `UsStateCodes` map, in the order of the source
literal.  The map values (full state names) are never read by the
matcher.  Go does not define an iteration order for this map; the
parser below therefore takes the order as a parameter, and this list
is one admissible order. -/
def usStateCodesList : List String :=
  ["AL", "AK", "AZ", "AR", "CA", "CO", "CT", "DE",
   "FL", "GA", "HI", "ID", "IL", "IN", "IA", "KS",
   "KY", "LA", "ME", "MD", "MA", "MI", "MN", "MS",
   "MO", "MT", "NE", "NV", "NH", "NJ", "NM", "NY",
   "NC", "ND", "OH", "OK", "OR", "PA", "RI", "SC",
   "SD", "TN", "TX", "UT", "VT", "VA", "WA", "WV",
   "WI", "WY",
   "AS", "DC", "FM", "GU", "MH", "MP", "PW", "PR", "VI",
   "AA", "AE", "AP"]

/-- `extractLocationPieces` (geobed.go lines 877-935): returns
`(nCo, nSt, abbrevSlice, nSlice)`.  `stateIter` is the iteration order
of the `UsStateCodes` map (any permutation of its keys is a possible
Go execution); `adm` is the lazily loaded admin-division table. -/
def extractLocationPieces (adm : AdminTable) (stateIter : List String)
    (g : GeoBed) (n : String) :
    String × String × List String × List String :=
  let abbrevSlice := abbrevSliceOf n
  let step1 := g.Countries.foldl
    (fun (acc : String × String) co =>
      if patMatch (countryPatAt co.Country) acc.2 then
        (co.ISO, patStrip (countryPatAt co.Country) acc.2)
      else acc) ("", n)
  let nCo1 := step1.1
  let n1 := step1.2
  let step2 := stateIter.foldl
    (fun (acc : String × String × String) sc =>
      if patMatch (statePatAt sc) acc.2.2 then
        (sc, (if acc.2.1 = "" then "US" else acc.2.1),
          patStrip (statePatAt sc) acc.2.2)
      else acc) ("", nCo1, n1)
  let nSt2 := step2.1
  let nCo2 := step2.2.1
  let n2 := step2.2.2
  let step3 :=
    if nSt2 = "" then
      let parts := splitOnChar ' ' n2
      if parts.length ≥ 2 then
        let lastPart :=
          trimCutset (parts.getD (parts.length - 1) "") [',', ' ']
        if 2 ≤ lastPart.data.length ∧ lastPart.data.length ≤ 3 then
          let lastPartUpper := toUpper lastPart
          if nCo2 ≠ "" ∧ isAdminDivision adm nCo2 lastPartUpper then
            (lastPartUpper, nCo2, joinSpace (parts.take (parts.length - 1)))
          else if nCo2 = "" then
            let country := getAdminDivisionCountry adm lastPartUpper
            if country ≠ "" then
              (lastPartUpper, country,
                joinSpace (parts.take (parts.length - 1)))
            else (nSt2, nCo2, n2)
          else (nSt2, nCo2, n2)
        else (nSt2, nCo2, n2)
      else (nSt2, nCo2, n2)
    else (nSt2, nCo2, n2)
  let n3 := trimCutset step3.2.2 [' ', ',']
  let nSlice := splitOnChar ' ' n3
  (step3.2.1, step3.1, abbrevSlice, nSlice)

/-- `getSearchRange` (geobed.go lines 937-960): per remaining token,
the index range from the letter before the token's first letter to the
last arena index carrying the token's first letter (with the source's
`tk == 0` fallback to `len(Cities) - 1`). -/
def getSearchRange (g : GeoBed) (nSlice : List String) : List RangeR :=
  nSlice.foldl
    (fun ranges ns0 =>
      let ns := trimSuffix ns0 ","
      if ns.data.length > 0 then
        let fc := toLower (String.mk [ns.data.getD 0 ' '])
        let pik := String.mk [Char.ofNat ((fc.data.getD 0 ' ').toNat - 1)]
        let fk := (idxLookup g.cityNameIdx pik).getD 0
        let tk0 := (idxLookup g.cityNameIdx fc).getD 0
        let tk := if tk0 = 0 then g.Cities.length - 1 else tk0
        ranges ++ [{ f := fk, t := tk }]
      else ranges) []

/-- The Go slice `g.Cities[rng.f:rng.t]` (the source panics when the
bounds are invalid; that case is never reached here). -/
def sliceRange (cities : List GeobedCity) (rg : RangeR) :
    List GeobedCity :=
  (cities.drop rg.f).take (rg.t - rg.f)

end Geobed

namespace Geobed

/-! ## Scored fuzzy matching (geobed.go lines 770-875)

The score accumulator `bestMatchingKeys` is a Go `map[int]int`.  Keys
are inserted only by `+=` statements, i.e. only when at least one
scoring rule fires (each rule adds a positive amount).  The map is
modelled as an association list in insertion order; the two loops that
iterate the map receive an iteration-order parameter (`sched1`,
`sched2`), since Go leaves hash-map iteration order undefined. -/

/-- The score map (key: arena index; value: accumulated score). -/
abbrev ScoreMap := List (Nat × Int)

/-- `bestMatchingKeys[k] += x`: update in place, inserting on a miss. -/
def mapAdd (m : ScoreMap) (k : Nat) (x : Int) : ScoreMap :=
  if m.any (fun e => e.1 = k) then
    m.map (fun e => if e.1 = k then (e.1, e.2 + x) else e)
  else m ++ [(k, x)]

/-- The alternate-name block of the scoring loop: iterate
`strings.Fields(v.CityAlt)` — a whitespace split — adding +3 for a
case-insensitive and +5 for a case-sensitive equality with the input. -/
def altFieldScore (n cityAlt : String) : Int :=
  (goFields cityAlt).foldl
    (fun acc altV =>
      let acc1 := if eqFold altV n then acc + 3 else acc
      if altV = n then acc1 + 5 else acc1) 0

/-- Total score contribution for one candidate in one encounter of the
scoring loop (the sum of every `+=` the loop body applies to
`bestMatchingKeys[currentKey]`; it is 0 exactly when no rule fires, in
which case the key is not inserted). -/
def cityScore (cI rI : InternerState) (n nCo nSt : String)
    (abbrevSlice nSlice : List String) (fuzzyDistance : Int)
    (v : GeobedCity) : Int :=
  let vCountry := cityCountry cI v
  let vRegion := cityRegion rI v
  let s0 : Int := 0
  let s1 := abbrevSlice.foldl
    (fun acc av =>
      let lowerAv := toLower av
      let acc1 :=
        if av.data.length = 2 ∧ eqFold vRegion lowerAv then acc + 5
        else acc
      if av.data.length = 2 ∧ eqFold vCountry lowerAv then acc1 + 3
      else acc1) s0
  let s2 := if nCo ≠ "" ∧ nCo = vCountry then s1 + 4 else s1
  let s3 := if nSt ≠ "" ∧ nSt = vRegion then s2 + 4 else s2
  let s4 := if v.CityAlt ≠ "" then s3 + altFieldScore n v.CityAlt else s3
  let s5 :=
    if eqFold n v.City then s4 + 7
    else if fuzzyDistance > 0 then
      nSlice.foldl
        (fun acc ns0 =>
          let ns := trimSuffix ns0 ","
          if ns.data.length > 2 ∧ fuzzyMatch ns v.City fuzzyDistance then
            acc + 5
          else acc) s4
    else s4
  nSlice.foldl
    (fun acc ns0 =>
      let ns := trimSuffix ns0 ","
      let acc1 :=
        if goContains (toLower v.City) (toLower ns) then acc + 2 else acc
      if eqFold v.City ns then acc1 + 1 else acc1) s5

/-- The inner scoring loop over one slice `g.Cities[rng.f:rng.t]`,
starting at arena index `base = rng.f`.  The fast path (`nSt`
non-empty, input equals the city name and the parsed region equals the
city's region) returns the candidate immediately (`Sum.inl`). -/
def scoreCitiesInRange (cI rI : InternerState) (n nCo nSt : String)
    (abbrevSlice nSlice : List String) (fd : Int) :
    Nat → List GeobedCity → ScoreMap → GeobedCity ⊕ ScoreMap
  | _, [], m => Sum.inr m
  | base, v :: tl, m =>
    if nSt ≠ "" ∧ eqFold n v.City ∧ eqFold nSt (cityRegion rI v) then
      Sum.inl v
    else
      let sc := cityScore cI rI n nCo nSt abbrevSlice nSlice fd v
      let m1 := if sc > 0 then mapAdd m base sc else m
      scoreCitiesInRange cI rI n nCo nSt abbrevSlice nSlice fd
        (base + 1) tl m1

/-- The outer scoring loop over the search ranges. -/
def scoreRanges (cI rI : InternerState) (g : GeoBed)
    (n nCo nSt : String) (abbrevSlice nSlice : List String) (fd : Int) :
    List RangeR → ScoreMap → GeobedCity ⊕ ScoreMap
  | [], m => Sum.inr m
  | rg :: tl, m =>
    match scoreCitiesInRange cI rI n nCo nSt abbrevSlice nSlice fd
        rg.f (sliceRange g.Cities rg) m with
    | Sum.inl v => Sum.inl v
    | Sum.inr m1 =>
      scoreRanges cI rI g n nCo nSt abbrevSlice nSlice fd tl m1

/-- The `nCo == ""` population block (geobed.go lines 846-861): add +1
to every key whose city has population at least 1000 (this part is
independent of iteration order), track the key of the
highest-population city seen — ties keep the earlier key in the
iteration order `sched1` — and finally add +1 to that key whenever its
city has positive population (inserting the key if absent; note that
when the map is empty the tracked key stays at its zero value 0 and
index 0 of the arena is consulted). -/
def boostStep (g : GeoBed) (sched1 : ScoreMap → ScoreMap)
    (m : ScoreMap) : ScoreMap :=
  let m2 := m.map
    (fun e =>
      if (g.Cities.getD e.1 {}).Population ≥ 1000 then (e.1, e.2 + 1)
      else e)
  let hpk := ((sched1 m).foldl
    (fun (acc : Nat × Int) e =>
      if (g.Cities.getD e.1 {}).Population > acc.2 then
        (e.1, (g.Cities.getD e.1 {}).Population)
      else acc) (0, 0)).1
  if (g.Cities.getD hpk {}).Population > 0 then mapAdd m2 hpk 1 else m2

/-- The winner-selection loop (geobed.go lines 863-872): take the key
with the highest score, a strictly higher population overriding on an
exact score tie; `bestMatchingKey` starts at 0, so an empty map selects
arena index 0. -/
def selectBest (g : GeoBed) (entries : ScoreMap) : Nat :=
  (entries.foldl
    (fun (acc : Int × Nat) e =>
      let acc1 := if e.2 > acc.1 then (e.2, e.1) else acc
      if e.2 = acc1.1 ∧
          (g.Cities.getD e.1 {}).Population >
            (g.Cities.getD acc1.2 {}).Population then
        (acc1.1, e.1)
      else acc1) (0, 0)).2

/-- `fuzzyMatchLocation` (geobed.go lines 770-875): parse, score the
candidates in the search ranges, optionally apply the population
block, and return the arena record of the selected key.  `sched1` and
`sched2` are the iteration orders of the two `range` statements over
the `bestMatchingKeys` map. -/
def fuzzyMatchLocation (cI rI : InternerState) (adm : AdminTable)
    (stateIter : List String) (sched1 sched2 : ScoreMap → ScoreMap)
    (g : GeoBed) (n : String) (opts : GeocodeOptions) : GeobedCity :=
  let pieces := extractLocationPieces adm stateIter g n
  let nCo := pieces.1
  let nSt := pieces.2.1
  let abbrevSlice := pieces.2.2.1
  let nSlice := pieces.2.2.2
  let ranges := getSearchRange g nSlice
  match scoreRanges cI rI g n nCo nSt abbrevSlice nSlice
      opts.FuzzyDistance ranges [] with
  | Sum.inl v => v
  | Sum.inr m =>
    let m1 := if nCo = "" then boostStep g sched1 m else m
    let best := selectBest g (sched2 m1)
    g.Cities.getD best {}

/-! ## Exact-city matching (geobed.go lines 716-767) -/

/-- The candidate-collection loop of `exactMatchCity`: over every
search range, append each city whose name case-insensitively equals
the original input, and (separately) each city whose name equals the
stripped remainder. -/
def exactCandidates (adm : AdminTable) (stateIter : List String)
    (g : GeoBed) (n : String) : List GeobedCity :=
  let pieces := extractLocationPieces adm stateIter g n
  let nSlice := pieces.2.2.2
  let nWithoutAbbrev := joinSpace nSlice
  let ranges := getSearchRange g nSlice
  ranges.foldl
    (fun acc rg =>
      (sliceRange g.Cities rg).foldl
        (fun acc v =>
          let acc1 := if eqFold n v.City then acc ++ [v] else acc
          if eqFold nWithoutAbbrev v.City then acc1 ++ [v] else acc1)
        acc) []

/-- `exactMatchCity`: a single collected candidate is returned
unconditionally; several candidates are resolved by region, by
region-and-country, then by the parsed country with the highest
population (starting that fold from the zero record, so it stays empty
when no filtered candidate has positive population). -/
def exactMatchCity (cI rI : InternerState) (adm : AdminTable)
    (stateIter : List String) (g : GeoBed) (n : String) : GeobedCity :=
  let pieces := extractLocationPieces adm stateIter g n
  let nCo := pieces.1
  let nSt := pieces.2.1
  let matchingCities := exactCandidates adm stateIter g n
  if matchingCities.length = 1 then matchingCities.getD 0 {}
  else if matchingCities.length > 1 then
    let c0 : GeobedCity := {}
    let c1 := matchingCities.foldl
      (fun c city => if eqFold nSt (cityRegion rI city) then city else c)
      c0
    let c2 := matchingCities.foldl
      (fun c city =>
        if eqFold nSt (cityRegion rI city) ∧
            eqFold nCo (cityCountry cI city) then city
        else c) c1
    if c2.City = "" then
      let matchingCountryCities := matchingCities.filter
        (fun city => eqFold nCo (cityCountry cI city))
      matchingCountryCities.foldl
        (fun b city => if city.Population > b.Population then city else b)
        ({} : GeobedCity)
    else c2
  else {}

/-- `Geocode` (geobed.go lines 696-714): trim, return the empty record
for an empty input, and dispatch on `ExactCity`. -/
def Geocode (cI rI : InternerState) (adm : AdminTable)
    (stateIter : List String) (sched1 sched2 : ScoreMap → ScoreMap)
    (g : GeoBed) (n : String) (opts : GeocodeOptions) : GeobedCity :=
  let n1 := trimSpace n
  if n1 = "" then {}
  else if opts.ExactCity then exactMatchCity cI rI adm stateIter g n1
  else fuzzyMatchLocation cI rI adm stateIter sched1 sched2 g n1 opts

end Geobed

namespace Geobed

/-! ## Concrete instances used by the theorems

Interner states are built by `internList` from `newStringInterner`,
i.e. they are reachable interner states; arenas are built by
`mkGeoBed` from a name-sorted city list, so `cityNameIdx` is exactly
what construction computes. -/

/-- An interner that has seen no code beyond the reserved empty
string. -/
def emptyInterner : InternerState := newStringInterner

/-- Country interner holding "US". -/
def cIUS : InternerState := internList 256 newStringInterner ["US"]

/-- Country interner holding "VN". -/
def cIVN : InternerState := internList 256 newStringInterner ["VN"]

/-- Country interner holding "BE". -/
def cIBE : InternerState := internList 256 newStringInterner ["BE"]

/-- Country interner holding "GB". -/
def cIGB : InternerState := internList 256 newStringInterner ["GB"]

/-- Region interner holding "TX". -/
def rITX : InternerState := internList 65536 newStringInterner ["TX"]

/-- Region interner holding "CA" and "NY". -/
def rICANY : InternerState :=
  internList 65536 newStringInterner ["CA", "NY"]

/-- Arena for the no-match scenario: two cities, neither resembling
the query. -/
def aaaCity : GeobedCity := { City := "Aaa", Population := 5 }

/-- Second city of the no-match arena. -/
def bbbCity : GeobedCity := { City := "Bbb" }

/-- The no-match instance. -/
def noMatchArena : GeoBed := mkGeoBed [aaaCity, bbbCity] []

/-- City "Paris" (region TX, country US) of the iteration-order
scenario. -/
def parisCity : GeobedCity :=
  { City := "Paris", country := 1, region := 1, Population := 100 }

/-- City "Parisok" (region TX, country US) of the iteration-order
scenario. -/
def parisokCity : GeobedCity :=
  { City := "Parisok", country := 1, region := 1, Population := 50 }

/-- The iteration-order instance (name-sorted arena). -/
def parisArena : GeoBed :=
  mkGeoBed [parisCity, parisokCity, { City := "Pzz" }, { City := "Quux" }]
    []

/-- An alternative iteration order of the `UsStateCodes` map: "TX"
first, the remaining keys in source order.  Go specifies no map
iteration order, so both this and `usStateCodesList` are possible
executions. -/
def stateIterTX : List String :=
  "TX" :: usStateCodesList.filter (fun s => s ≠ "TX")

/-- "Ho Chi Minh City" with its comma-separated alternate names, one
of which contains spaces. -/
def hcmcCity : GeobedCity :=
  { City := "Ho Chi Minh City", CityAlt := "Ho Chi Minh City,Saigon",
    country := 1, Population := 100000 }

/-- The alternate-name instance ("Aa" is the first city of the
arena). -/
def saigonArena : GeoBed :=
  mkGeoBed [{ City := "Aa", Population := 5 }, hcmcCity, { City := "Zz" }]
    []

/-- A zero-population "Foo" in region CA, country US. -/
def fooCACity : GeobedCity := { City := "Foo", country := 1, region := 1 }

/-- A zero-population "Foo" in region NY, country US. -/
def fooNYCity : GeobedCity := { City := "Foo", country := 1, region := 2 }

/-- The exact-mode zero-population instance. -/
def fooArena : GeoBed :=
  mkGeoBed [fooCACity, fooNYCity, { City := "Fzz" }] []

/-- The single city "Lille", in country BE. -/
def lilleCity : GeobedCity :=
  { City := "Lille", country := 1, Population := 10000 }

/-- Country table entry for France. -/
def franceInfo : CountryInfo := { Country := "France", ISO := "FR" }

/-- The single-candidate instance: one "Lille" (in BE) and a country
table knowing France. -/
def lilleArena : GeoBed :=
  mkGeoBed [lilleCity, { City := "Zz" }] [franceInfo]

/-- "City of London": population 7556, at the Square Mile. -/
def cityOfLondon : GeobedCity :=
  { City := "City of London", country := 1,
    Latitude := 5151279 / 100000, Longitude := -9184 / 100000,
    Population := 7556 }

/-- "London": population 8961989, about 3 km away. -/
def londonCity : GeobedCity :=
  { City := "London", country := 1,
    Latitude := 5150853 / 100000, Longitude := -12574 / 100000,
    Population := 8961989 }

/-- Concrete distance model for the London query: the query point is
0.0001 rad (~0.6 km) from City of London and 0.0005 rad (~3.2 km)
from London — both far below the spec's ~10 km neighborhood radius
(0.00157 rad). -/
def s2distLondon : F64 → F64 → ℚ × ℚ → F64 := fun _ _ p =>
  if p.1 = 5151279 / 100000 then F64.fin (1 / 10000)
  else F64.fin (5 / 10000)

/-- 255 pairwise-distinct non-empty codes (the code of index `i` is
the string of `i + 1` letters 'a', so distinctness is decided by the
length). -/
def fresh255 : List String :=
  (List.range 255).map (fun i => String.mk (List.replicate (i + 1) 'a'))

/-- Interner state after interning 255 fresh codes into a fresh
interner with `uint8` handles: the lookup vector holds 256 strings, so
the next fresh code receives the truncated handle `256 % 256 = 0`. -/
def st255 : InternerState := internList 256 newStringInterner fresh255


end Geobed

namespace Geobed

/-- Well-formedness of an interner state: the reserved empty string is
present with handle 0, and every index entry points inside the lookup
vector at its own string.  `newStringInterner` satisfies it, and
`intern` preserves it while the vector stays within the handle range. -/
def InternerWF (st : InternerState) : Prop :=
  lookupAssoc st.index "" = some 0 ∧
  ∀ p ∈ st.index, p.2 < st.lookup.length ∧ st.lookup.getD p.2 "" = p.1

/-! ## Helper lemmas -/

theorem lookupAssoc_append (m₁ m₂ : List (String × Nat)) (s : String) :
    lookupAssoc (m₁ ++ m₂) s =
      match lookupAssoc m₁ s with
      | some v => some v
      | none => lookupAssoc m₂ s := by
  induction m₁ with
  | nil => simp [lookupAssoc]
  | cons hd tl ih =>
    obtain ⟨k, v⟩ := hd
    by_cases h : k = s
    · simp [lookupAssoc, h]
    · simp [lookupAssoc, h, ih]

theorem lookupAssoc_mem (m : List (String × Nat)) (s : String) (v : Nat)
    (h : lookupAssoc m s = some v) : (s, v) ∈ m := by
  induction m with
  | nil => simp [lookupAssoc] at h
  | cons hd tl ih =>
    obtain ⟨k, w⟩ := hd
    by_cases hk : k = s
    · subst hk
      simp [lookupAssoc] at h
      simp [h]
    · simp [lookupAssoc, hk] at h
      simp [ih h]

theorem intern_hit (W : Nat) (st : InternerState) (s : String) (i : Nat)
    (h : lookupAssoc st.index s = some i) : intern W st s = (i, st) := by
  simp [intern, h]

theorem intern_miss (W : Nat) (st : InternerState) (s : String)
    (h : lookupAssoc st.index s = none) :
    intern W st s =
      (st.lookup.length % W,
        (⟨st.lookup ++ [s], st.index ++ [(s, st.lookup.length % W)]⟩ :
          InternerState)) := by
  simp [intern, h]

theorem intern_miss_fst (W : Nat) (st : InternerState) (s : String)
    (h : lookupAssoc st.index s = none) :
    (intern W st s).1 = st.lookup.length % W := by
  rw [intern_miss W st s h]

theorem intern_miss_snd (W : Nat) (st : InternerState) (s : String)
    (h : lookupAssoc st.index s = none) :
    (intern W st s).2 =
      (⟨st.lookup ++ [s], st.index ++ [(s, st.lookup.length % W)]⟩ :
        InternerState) := by
  rw [intern_miss W st s h]

theorem pair_fst (a : Nat) (b : InternerState) : (Prod.mk a b).1 = a := rfl

theorem pair_snd (a : Nat) (b : InternerState) : (Prod.mk a b).2 = b := rfl

theorem mkState_lookup (l : List String) (i : List (String × Nat)) :
    (⟨l, i⟩ : InternerState).lookup = l := rfl

theorem mkState_index (l : List String) (i : List (String × Nat)) :
    (⟨l, i⟩ : InternerState).index = i := rfl

theorem iGet_zero_cons (s : String) (tl : List String)
    (i : List (String × Nat)) :
    iGet (⟨s :: tl, i⟩ : InternerState) 0 = s := by
  simp [iGet]

theorem internList_fresh_lookup (W : Nat) (ss : List String) :
    ∀ st : InternerState,
      (∀ s ∈ ss, lookupAssoc st.index s = none) → ss.Nodup →
      (internList W st ss).lookup = st.lookup ++ ss := by
  induction ss with
  | nil => intro st _ _; simp [internList]
  | cons s tl ih =>
    intro st hfresh hnd
    have hs : lookupAssoc st.index s = none := hfresh s (by simp)
    have hstep : intern W st s =
        (st.lookup.length % W,
          { lookup := st.lookup ++ [s],
            index := st.index ++ [(s, st.lookup.length % W)] }) := by
      simp [intern, hs]
    have hfresh' : ∀ t ∈ tl,
        lookupAssoc (st.index ++ [(s, st.lookup.length % W)]) t = none := by
      intro t ht
      rw [lookupAssoc_append, hfresh t (by simp [ht])]
      have hts : s ≠ t := by
        rintro rfl
        exact (List.nodup_cons.mp hnd).1 ht
      simp [lookupAssoc, hts]
    have hrec := ih
      (⟨st.lookup ++ [s], st.index ++ [(s, st.lookup.length % W)]⟩ :
        InternerState)
      hfresh' (List.nodup_cons.mp hnd).2
    simp only [internList, hstep]
    rw [hrec]
    simp

theorem internList_fresh_index_none (W : Nat) (t : String)
    (ss : List String) :
    ∀ st : InternerState,
      (∀ s ∈ ss, lookupAssoc st.index s = none) → ss.Nodup →
      lookupAssoc st.index t = none → t ∉ ss →
      lookupAssoc (internList W st ss).index t = none := by
  induction ss with
  | nil => intro st _ _ ht _; simpa [internList] using ht
  | cons s tl ih =>
    intro st hfresh hnd ht hmem
    have hs : lookupAssoc st.index s = none := hfresh s (by simp)
    have hstep : intern W st s =
        (st.lookup.length % W,
          { lookup := st.lookup ++ [s],
            index := st.index ++ [(s, st.lookup.length % W)] }) := by
      simp [intern, hs]
    have hfresh' : ∀ u ∈ tl,
        lookupAssoc (st.index ++ [(s, st.lookup.length % W)]) u = none := by
      intro u hu
      rw [lookupAssoc_append, hfresh u (by simp [hu])]
      have hus : s ≠ u := by
        rintro rfl
        exact (List.nodup_cons.mp hnd).1 hu
      simp [lookupAssoc, hus]
    have hts : s ≠ t := by
      rintro rfl
      exact hmem (by simp)
    have ht' : lookupAssoc (st.index ++ [(s, st.lookup.length % W)]) t =
        none := by
      rw [lookupAssoc_append, ht]
      simp [lookupAssoc, hts]
    have hrec := ih
      (⟨st.lookup ++ [s], st.index ++ [(s, st.lookup.length % W)]⟩ :
        InternerState)
      hfresh' (List.nodup_cons.mp hnd).2 ht'
      (fun hmem' => hmem (by simp [hmem']))
    simpa only [internList, hstep] using hrec

theorem freshString_inj :
    Function.Injective (fun i => String.mk (List.replicate (i + 1) 'a')) := by
  intro i j h
  have hd : List.replicate (i + 1) 'a' = List.replicate (j + 1) 'a' :=
    congrArg String.data h
  have hlen := congrArg List.length hd
  simpa using hlen

theorem fresh255_nodup : fresh255.Nodup :=
  (List.nodup_range 255).map freshString_inj

theorem fresh255_ne_empty : ∀ s ∈ fresh255, s ≠ "" := by
  intro s hs
  simp only [fresh255, List.mem_map, List.mem_range] at hs
  obtain ⟨i, _, rfl⟩ := hs
  intro h
  have hd : List.replicate (i + 1) 'a' = ("" : String).data :=
    congrArg String.data h
  have hlen := congrArg List.length hd
  simp at hlen

theorem zz_not_mem_fresh255 : "zz" ∉ fresh255 := by
  intro hmem
  simp only [fresh255, List.mem_map, List.mem_range] at hmem
  obtain ⟨i, _, h⟩ := hmem
  have hd : List.replicate (i + 1) 'a' = ("zz" : String).data :=
    congrArg String.data h
  have hlen := congrArg List.length hd
  have hi : i = 1 := by
    have : i + 1 = 2 := by simpa using hlen
    omega
  subst hi
  simp [List.replicate] at hd

theorem fresh255_fresh :
    ∀ s ∈ fresh255, lookupAssoc newStringInterner.index s = none := by
  intro s hs
  have hne : ¬ (("" : String) = s) := fun h =>
    fresh255_ne_empty s hs h.symm
  simp [newStringInterner, lookupAssoc, hne]

theorem st255_lookup : st255.lookup = "" :: fresh255 := by
  have h := internList_fresh_lookup 256 fresh255 newStringInterner
    fresh255_fresh fresh255_nodup
  simpa [st255, newStringInterner] using h

theorem st255_len : st255.lookup.length = 256 := by
  rw [st255_lookup]
  simp [fresh255]

theorem st255_zz_none : lookupAssoc st255.index "zz" = none := by
  refine internList_fresh_index_none 256 "zz" fresh255 newStringInterner
    fresh255_fresh fresh255_nodup ?_ zz_not_mem_fresh255
  simp [newStringInterner, lookupAssoc]

end Geobed

namespace Geobed

/-! ## Claim theorems: interner (C5, C9) -/

/-- Claim C5 (code_bug evidence): appending the 256th distinct
non-empty code to the `uint8` country interner is a silent wraparound,
not a hard failure.  In the reachable state `st255` (the empty string
plus 255 fresh codes, lookup vector length 256), interning the fresh
code "zz" returns the truncated handle `256 % 256 = 0` — the handle of
the reserved empty string — while the state keeps growing (lookup
length 257) and `get` on the returned handle yields "", all without
any failure path: `intern` is total and has no overflow check. -/
theorem country_interner_silent_wraparound :
    (intern 256 st255 "zz").1 = 0 ∧
    (intern 256 st255 "zz").2.lookup.length = 257 ∧
    iGet (intern 256 st255 "zz").2 0 = "" := by
  have h1 : (intern 256 st255 "zz").1 = 0 := by
    rw [intern_miss_fst 256 st255 "zz" st255_zz_none, st255_len]
  have h2 : (intern 256 st255 "zz").2.lookup.length = 257 := by
    rw [intern_miss_snd 256 st255 "zz" st255_zz_none, mkState_lookup,
      List.length_append, st255_len]
    rfl
  have h3 : iGet (intern 256 st255 "zz").2 0 = "" := by
    rw [intern_miss_snd 256 st255 "zz" st255_zz_none, st255_lookup,
      List.cons_append]
    exact iGet_zero_cons "" _ _
  exact ⟨h1, h2, h3⟩

/-- The wraparound state written out: interning "zz" into `st255`
appends "zz" to the lookup vector and maps it to the wrapped handle 0
in the index. -/
theorem st255_step_snd : (intern 256 st255 "zz").2 =
    (⟨st255.lookup ++ ["zz"], st255.index ++ [("zz", 0)]⟩ :
      InternerState) := by
  have h := intern_miss_snd 256 st255 "zz" st255_zz_none
  rw [st255_len] at h
  have h0 : (256 : Nat) % 256 = 0 := rfl
  rw [h0] at h
  exact h

/-- Claim C9 (counterexample): in the reachable wraparound interner
state `(intern 256 st255 "zz").2` (the empty string, 255 fresh
one-character codes, then "zz", with `uint8` handles), the code "zz" is
interned with handle 0, and `get(intern("zz"))` returns the empty
string, not "zz": the round-trip `get(intern(k)) == k` fails once the
handle width is exhausted. -/
theorem intern_roundtrip_fails_after_wraparound :
    iGet (intern 256 (intern 256 st255 "zz").2 "zz").2
      (intern 256 (intern 256 st255 "zz").2 "zz").1 ≠ "zz" := by
  rw [st255_step_snd]
  have hfound : lookupAssoc
      (⟨st255.lookup ++ ["zz"], st255.index ++ [("zz", 0)]⟩ :
        InternerState).index "zz" = some 0 := by
    rw [mkState_index, lookupAssoc_append, st255_zz_none]
    show lookupAssoc [("zz", 0)] "zz" = some 0
    simp [lookupAssoc]
  have hstep := intern_hit 256 _ "zz" 0 hfound
  rw [hstep, pair_snd, pair_fst, st255_lookup, List.cons_append,
    iGet_zero_cons]
  decide

/-- Claim C9 (amended): for a well-formed interner state whose lookup
vector is still below the handle modulus `W`, `get(intern(k)) == k`
holds for every code `k`, and the empty string interns to handle 0. -/
theorem intern_roundtrip_below_capacity (W : Nat) (st : InternerState)
    (k : String) (hwf : InternerWF st) (hlen : st.lookup.length < W) :
    iGet (intern W st k).2 (intern W st k).1 = k ∧
    (intern W st "").1 = 0 := by
  constructor
  · cases h : lookupAssoc st.index k with
    | some v =>
      have hm := lookupAssoc_mem _ _ _ h
      have hv := hwf.2 _ hm
      have h2 := hv.2
      simp only [intern, h, iGet]
      rw [if_pos hv.1]
      exact h2
    | none =>
      have hmod : st.lookup.length % W = st.lookup.length :=
        Nat.mod_eq_of_lt hlen
      simp only [intern, h]
      simp [iGet, hmod]
  · simp [intern, hwf.1]

/-- Witness for the amended C9 theorem: the freshly constructed
interner round-trips the code "US" and interns "" to 0. -/
theorem intern_roundtrip_below_capacity_witness :
    iGet (intern 256 newStringInterner "US").2
      (intern 256 newStringInterner "US").1 = "US" ∧
    (intern 256 newStringInterner "").1 = 0 :=
  intern_roundtrip_below_capacity 256 newStringInterner "US"
    ⟨by decide, by decide⟩ (by decide)

/-! ## Claim theorems: reverse geocoding (C2, C3, C7) -/

/-- Claim C2 (code_bug evidence): `ReverseGeocode` keeps the closest
candidate with no neighborhood override.  On an arena holding "City of
London" (population 7556, 0.0001 rad from the query) and "London"
(population 8961989, 0.0005 rad away — within the spec's ~10 km
second radius of 0.00157 rad and more than 10 times the population),
the function returns "City of London", where the specification and the
repository's regression tests require the much larger neighbor. -/
theorem reverse_ignores_neighborhood_override :
    ReverseGeocode (F64.fin (5151279 / 100000)) (F64.fin (-9184 / 100000))
      s2distLondon [cityOfLondon, londonCity] [0, 1] = cityOfLondon ∧
    cityOfLondon.Population < 500000 ∧
    10 * cityOfLondon.Population ≤ londonCity.Population ∧
    ((5 : ℚ) / 10000) < 157 / 100000 := by
  refine ⟨?_, by norm_num [cityOfLondon], ?_, by norm_num⟩
  · have hc1 : flt (F64.fin (1 / 10000)) (F64.fin maxFloat64) = true := by
      simp only [flt, maxFloat64, decide_eq_true_eq]
      norm_num
    have hc2 : flt (F64.fin (1 / 2000)) (F64.fin (1 / 10000)) = false := by
      simp only [flt, decide_eq_false_iff_not]
      norm_num
    have hc3 : feq (F64.fin (1 / 2000)) (F64.fin (1 / 10000)) = false := by
      simp only [feq, decide_eq_false_iff_not]
      norm_num
    have hlat : ((5150853 : ℚ) / 100000) ≠ 5151279 / 100000 := by norm_num
    simp only [ReverseGeocode, reverseFold, s2distLondon, cityOfLondon,
      londonCity, List.getD_cons_zero, List.getD_cons_succ]
    norm_num [hc1, hc2, hc3, cityOfLondon, londonCity]
  · norm_num [cityOfLondon, londonCity]

/-- Claim C3: whenever every city of the arena lies strictly beyond a
cutoff distance `C` (the ~100 km constant) while every candidate the
S2 cell neighborhood can deliver lies within `B ≤ C` (the nine level-10
cells around the query span well under 100 km — the property of the
external S2 library this hypothesis models), the candidate sequence is
empty and `ReverseGeocode` returns the zero-valued record. -/
theorem reverse_far_query_returns_empty (lat lng : F64)
    (s2dist : F64 → F64 → ℚ × ℚ → F64) (cities : List GeobedCity)
    (revSeq : List Nat) (B C : ℚ)
    (hik : ∀ i ∈ revSeq, i < cities.length)
    (hnear : ∀ i ∈ revSeq, ∃ d : ℚ,
      s2dist lat lng ((cities.getD i {}).Latitude,
        (cities.getD i {}).Longitude) = F64.fin d ∧ d ≤ B)
    (hfar : ∀ i < cities.length, ∀ d : ℚ,
      s2dist lat lng ((cities.getD i {}).Latitude,
        (cities.getD i {}).Longitude) = F64.fin d → C < d)
    (hBC : B ≤ C) :
    ReverseGeocode lat lng s2dist cities revSeq = {} := by
  have hempty : revSeq = [] := by
    rw [List.eq_nil_iff_forall_not_mem]
    intro i hi
    obtain ⟨d, hd, hdB⟩ := hnear i hi
    have hC := hfar i (hik i hi) d hd
    linarith
  rw [hempty]
  rfl

/-- Witness for the C3 theorem at a concrete far query: the single
city is 1 rad away, the cutoff is 1/2, and no candidate reaches the
cell neighborhood, so the result is empty. -/
theorem reverse_far_query_returns_empty_witness :
    ReverseGeocode (F64.fin 90) (F64.fin 0) (fun _ _ _ => F64.fin 1)
      [aaaCity] [] = {} := by
  refine reverse_far_query_returns_empty (F64.fin 90) (F64.fin 0)
    (fun _ _ _ => F64.fin 1) [aaaCity] [] ((1 : ℚ)/2) ((1 : ℚ)/2)
    (by simp) (by simp) ?_ le_rfl
  intro i hi d hd
  simp only [] at hd
  have : (1 : ℚ) = d := by
    injection hd
  rw [← this]
  norm_num

/-- The candidate fold never moves off its accumulator when every
visited distance is NaN: IEEE comparisons with NaN are false in both
branch conditions. -/
theorem reverseFold_nan (cities : List GeobedCity) (dist : Nat → F64)
    (seq : List Nat) :
    ∀ acc : GeobedCity × F64, (∀ i ∈ seq, dist i = F64.nan) →
      reverseFold cities dist seq acc = acc := by
  induction seq with
  | nil => intro acc _; rfl
  | cons i tl ih =>
    intro acc h
    have hi : dist i = F64.nan := h i (by simp)
    obtain ⟨closest, minDist⟩ := acc
    have h1 : flt (dist i) minDist = false := by rw [hi]; cases minDist <;> rfl
    have h2 : feq (dist i) minDist = false := by rw [hi]; cases minDist <;> rfl
    simp only [reverseFold, h1, h2]
    simp only [Bool.false_eq_true, false_and, if_false]
    exact ih (closest, minDist) (fun j hj => h j (by simp [hj]))

/-- Claim C7: when the query latitude or longitude is NaN or infinite,
every distance the S2 library computes from it is NaN (`hs2` states
this IEEE propagation property of the external
`s2.LatLng.Distance`), both loop comparisons are false for every
candidate, and `ReverseGeocode` returns the zero-valued empty
record. -/
theorem reverse_nonfinite_returns_empty (lat lng : F64)
    (s2dist : F64 → F64 → ℚ × ℚ → F64) (cities : List GeobedCity)
    (revSeq : List Nat)
    (hs2 : ∀ (la ln : F64) (p : ℚ × ℚ),
      la.isFinite = false ∨ ln.isFinite = false → s2dist la ln p = F64.nan)
    (hq : lat.isFinite = false ∨ lng.isFinite = false) :
    ReverseGeocode lat lng s2dist cities revSeq = {} := by
  unfold ReverseGeocode
  rw [reverseFold_nan]
  intro i _
  exact hs2 _ _ _ hq

/-- Witness for the C7 theorem: a NaN latitude over a one-city arena
with its index in the candidate sequence yields the empty record. -/
theorem reverse_nonfinite_returns_empty_witness :
    ReverseGeocode F64.nan (F64.fin 0) (fun _ _ _ => F64.nan)
      [aaaCity] [0] = {} :=
  reverse_nonfinite_returns_empty F64.nan (F64.fin 0)
    (fun _ _ _ => F64.nan) [aaaCity] [0]
    (fun _ _ _ _ => rfl) (Or.inl rfl)

end Geobed

namespace Geobed

/-! ## Claim theorems: forward matching (C1, C4, C6, C8, C10) -/

set_option maxRecDepth 100000 in
set_option maxHeartbeats 2000000 in
/-- Claim C1 (code_bug evidence): in scored fuzzy mode, a query for
which no candidate accrues any score returns the first city of the
arena, not the empty record.  For the query "Zzz" on an arena whose
cities are "Aaa" (population 5) and "Bbb", no scoring rule fires, the
score map stays empty, the population block bumps the still-zero
default key 0, and the winner-selection default returns
`Cities[0] = "Aaa"` — a non-empty record. -/
theorem fuzzy_nomatch_returns_first_city :
    Geocode emptyInterner emptyInterner [] usStateCodesList id id
      noMatchArena "Zzz" {} = aaaCity ∧
    noMatchArena.Cities.getD 0 {} = aaaCity ∧
    aaaCity ≠ ({} : GeobedCity) := by
  refine ⟨by decide, by decide, by decide⟩

set_option maxRecDepth 100000 in
set_option maxHeartbeats 2000000 in
/-- Claim C4 (code_bug evidence): the result of scored fuzzy mode
depends on the iteration order of the `UsStateCodes` hash map.  Both
`usStateCodesList` (the source-literal order) and `stateIterTX` ("TX"
first) enumerate the same key set, yet on the query "Paris TX OK" the
first order strips "OK" then "TX" (leaving remainder "Paris") and
returns "Paris", while the second strips "TX" first — the replacement
swallowing both neighbouring spaces — leaving remainder "ParisOK" and
returning "Parisok".  Identical instance, identical input, different
records. -/
theorem geocode_depends_on_state_iteration_order :
    stateIterTX.Perm usStateCodesList ∧
    Geocode cIUS rITX [] usStateCodesList id id parisArena
      "Paris TX OK" {} = parisCity ∧
    Geocode cIUS rITX [] stateIterTX id id parisArena
      "Paris TX OK" {} = parisokCity ∧
    parisCity ≠ parisokCity := by
  refine ⟨by decide, by decide, by decide, by decide⟩

set_option maxRecDepth 100000 in
set_option maxHeartbeats 2000000 in
/-- Claim C6 (code_bug evidence): the alternate-name bonuses iterate a
whitespace split (`strings.Fields`), not a comma split.  The alt field
"Ho Chi Minh City,Saigon" is split into the four tokens "Ho", "Chi",
"Minh" and "City,Saigon", so the alternate "Saigon" is never compared
as a whole and earns no bonus (`altFieldScore = 0`); the query
"Saigon" then misses "Ho Chi Minh City" entirely and falls back to the
first city of the arena. -/
theorem alt_bonus_whitespace_split :
    goFields "Ho Chi Minh City,Saigon" =
      ["Ho", "Chi", "Minh", "City,Saigon"] ∧
    altFieldScore "Saigon" "Ho Chi Minh City,Saigon" = 0 ∧
    (Geocode cIVN emptyInterner [] usStateCodesList id id saigonArena
      "Saigon" {}).City = "Aa" := by
  refine ⟨by decide, by decide, by decide⟩

set_option maxRecDepth 100000 in
set_option maxHeartbeats 2000000 in
/-- Claim C8 (counterexample): in exact-city mode with two
name-matching candidates ("Foo" in US/CA and US/NY), a parsed region
(TX) matching neither, and both country-filtered candidates at
population 0, `Geocode` returns the empty record — not the first
candidate as the claim states. -/
theorem exact_zero_population_returns_empty_cex :
    Geocode cIUS rICANY [] usStateCodesList id id fooArena "Foo, TX"
      { ExactCity := true } = ({} : GeobedCity) ∧
    (exactCandidates [] usStateCodesList fooArena "Foo, TX").length = 2 ∧
    (exactCandidates [] usStateCodesList fooArena "Foo, TX").getD 0 {} =
      fooCACity ∧
    fooCACity ≠ ({} : GeobedCity) := by
  refine ⟨by decide, by decide, by decide, by decide⟩

/-- The region-preference fold keeps its accumulator when no candidate
matches the parsed region. -/
theorem foldl_region_keep (rI : InternerState) (nSt : String)
    (l : List GeobedCity) (c : GeobedCity)
    (h : ∀ v ∈ l, eqFold nSt (cityRegion rI v) = false) :
    l.foldl (fun c city =>
      if eqFold nSt (cityRegion rI city) then city else c) c = c := by
  induction l generalizing c with
  | nil => rfl
  | cons v tl ih =>
    have hv := h v (by simp)
    rw [List.foldl_cons, hv]
    simp only [Bool.false_eq_true, if_false]
    exact ih c (fun u hu => h u (by simp [hu]))

/-- The region-and-country fold keeps its accumulator when no candidate
matches the parsed region. -/
theorem foldl_region_country_keep (cI rI : InternerState)
    (nSt nCo : String) (l : List GeobedCity) (c : GeobedCity)
    (h : ∀ v ∈ l, eqFold nSt (cityRegion rI v) = false) :
    l.foldl (fun c city =>
      if eqFold nSt (cityRegion rI city) ∧
          eqFold nCo (cityCountry cI city) then city else c) c = c := by
  induction l generalizing c with
  | nil => rfl
  | cons v tl ih =>
    have hv := h v (by simp)
    rw [List.foldl_cons, hv]
    simp only [Bool.false_eq_true, false_and, if_false]
    exact ih c (fun u hu => h u (by simp [hu]))

/-- The highest-population fold stays at the zero record when every
element has non-positive population (the zero record has population
0 and the comparison is strict). -/
theorem foldl_population_zero (l : List GeobedCity)
    (h : ∀ v ∈ l, v.Population ≤ 0) :
    l.foldl (fun b city =>
      if city.Population > b.Population then city else b)
      ({} : GeobedCity) = {} := by
  induction l with
  | nil => rfl
  | cons v tl ih =>
    have hv : ¬ (v.Population > ({} : GeobedCity).Population) := by
      have hle := h v (by simp)
      show ¬ (v.Population > 0)
      omega
    rw [List.foldl_cons, if_neg hv]
    exact ih (fun u hu => h u (by simp [hu]))

/-- Claim C8 (amended): in exact-city mode, when several candidates
name-match, none matches the parsed region, and every candidate of the
country-filtered sublist keeps population at most 0, `exactMatchCity`
returns the empty record (the highest-population fold runs over the
country-filtered candidates only, starts from the zero record, and
only a strictly positive population can displace it). -/
theorem exact_zero_population_returns_empty (cI rI : InternerState)
    (adm : AdminTable) (stateIter : List String) (g : GeoBed)
    (n : String)
    (hlen : 1 < (exactCandidates adm stateIter g n).length)
    (hreg : ∀ v ∈ exactCandidates adm stateIter g n,
      eqFold (extractLocationPieces adm stateIter g n).2.1
        (cityRegion rI v) = false)
    (hpop : ∀ v ∈ (exactCandidates adm stateIter g n).filter
        (fun city => eqFold (extractLocationPieces adm stateIter g n).1
          (cityCountry cI city)),
      v.Population ≤ 0) :
    exactMatchCity cI rI adm stateIter g n = {} := by
  have hne1 : ¬ ((exactCandidates adm stateIter g n).length = 1) := by
    omega
  simp only [exactMatchCity]
  rw [if_neg hne1, if_pos hlen]
  rw [foldl_region_keep rI _ _ _ hreg]
  rw [foldl_region_country_keep cI rI _ _ _ _ hreg]
  rw [if_pos rfl]
  exact foldl_population_zero _ hpop

set_option maxRecDepth 100000 in
set_option maxHeartbeats 2000000 in
/-- Witness for the amended C8 theorem: the concrete "Foo, TX"
instance yields the empty record. -/
theorem exact_zero_population_returns_empty_witness :
    exactMatchCity cIUS rICANY [] usStateCodesList fooArena "Foo, TX" =
      {} :=
  exact_zero_population_returns_empty cIUS rICANY [] usStateCodesList
    fooArena "Foo, TX" (by decide) (by decide) (by decide)

/-- Claim C10: in exact-city mode, a uniquely name-matching candidate
is returned unconditionally — the parsed country and region are never
consulted on the single-candidate path. -/
theorem exact_single_candidate_unconditional (cI rI : InternerState)
    (adm : AdminTable) (stateIter : List String)
    (sched1 sched2 : ScoreMap → ScoreMap) (g : GeoBed) (n : String)
    (v : GeobedCity) (htrim : trimSpace n = n) (hne : ¬ (n = ""))
    (hsingle : exactCandidates adm stateIter g n = [v]) :
    Geocode cI rI adm stateIter sched1 sched2 g n
      { ExactCity := true } = v := by
  simp only [Geocode, htrim]
  rw [if_neg hne, if_pos trivial]
  simp only [exactMatchCity, hsingle]
  simp

set_option maxRecDepth 100000 in
set_option maxHeartbeats 2000000 in
/-- Witness for the C10 theorem: the query "France, Lille" parses the
country FR and matches exactly one city — "Lille" in country BE — and
that city is returned even though its country differs from the parsed
one. -/
theorem exact_single_candidate_unconditional_witness :
    Geocode cIBE emptyInterner [] usStateCodesList id id lilleArena
      "France, Lille" { ExactCity := true } = lilleCity ∧
    (extractLocationPieces [] usStateCodesList lilleArena
      "France, Lille").1 = "FR" ∧
    cityCountry cIBE lilleCity = "BE" :=
  ⟨exact_single_candidate_unconditional cIBE emptyInterner []
      usStateCodesList id id lilleArena "France, Lille" lilleCity
      (by decide) (by decide) (by decide),
    by decide, by decide⟩

end Geobed
